import Mathlib

/-
Verification of the computational core of react-native-modern-date-picker
(src/package/src/index.tsx) against its natural-language specification.

The TypeScript source is shallowly embedded in Lean:
  - colors are Lean Strings; JavaScript hex parsing (including the
    semantics of parseInt with radix 16 and of bitwise operators on NaN
    and on out-of-range numbers, via ToInt32) is modelled exactly;
  - JavaScript numbers used in the luminance computation are modelled as
    real numbers (Math.pow(x, 2.4) becomes Real.rpow);
  - JavaScript Date values are modelled as normalized civil calendar
    fields (year, month 0-11, day 1-31, minute of day) together with the
    standard civil-from/ to-day-number arithmetic used by ECMAScript
    MakeDay; field normalization (month carry, day borrow/carry) follows
    the ECMAScript semantics of the Date(year, month, day) constructor,
    setDate, setHours, setMinutes and setFullYear;
  - React state updates in event handlers become pure state-transition
    functions returning the new state together with the events fired
    (onChange / onRangeChange / onClose).
-/

namespace ModernDP

/-! ## Colors: hexToRgb (index.tsx lines 84-95) -/

structure Rgb where
  r : Nat
  g : Nat
  b : Nat
deriving DecidableEq, Repr

/-- JavaScript whitespace test for the characters String.prototype.trim
removes (ASCII subset; the inputs of interest contain no exotic spaces). -/
def isJsSpace (c : Char) : Bool :=
  c = ' ' || c = '\t' || c = '\n' || c = '\r'

/-- hex.replace(/^#/, "") : drop one leading hash character. -/
def stripHash : List Char → List Char
  | '#' :: rest => rest
  | s => s

/-- String.prototype.trim on a character list. -/
def trimChars (l : List Char) : List Char :=
  ((l.dropWhile isJsSpace).reverse.dropWhile isJsSpace).reverse

/-- Value of a single hexadecimal digit, if any (0-9, a-f, A-F). -/
def hexDigitVal (c : Char) : Option Nat :=
  if '0' ≤ c ∧ c ≤ '9' then some (c.toNat - '0'.toNat)
  else if 'a' ≤ c ∧ c ≤ 'f' then some (c.toNat - 'a'.toNat + 10)
  else if 'A' ≤ c ∧ c ≤ 'F' then some (c.toNat - 'A'.toNat + 10)
  else none

/-- Longest-prefix hexadecimal digit accumulation, as parseInt does:
the accumulator is none while no digit has been consumed (NaN). -/
def takeHexVal : List Char → Option Nat → Option Nat
  | [], acc => acc
  | c :: rest, acc =>
    match hexDigitVal c with
    | some d => takeHexVal rest (some ((acc.getD 0) * 16 + d))
    | none => acc

/-- parseInt(s, 16) magnitude: an optional 0x / 0X prefix is skipped,
then the longest prefix of hex digits is read; none models NaN. -/
def parseHexMagnitude (l : List Char) : Option Nat :=
  match l with
  | '0' :: 'x' :: rest => takeHexVal rest none
  | '0' :: 'X' :: rest => takeHexVal rest none
  | _ => takeHexVal l none

/-- parseInt(s, 16) on a trimmed character list: optional sign, optional
0x prefix, longest hex-digit prefix; none models NaN. -/
def parseIntHex (l : List Char) : Option Int :=
  match l with
  | '-' :: rest => (parseHexMagnitude rest).map (fun n => -(n : Int))
  | '+' :: rest => (parseHexMagnitude rest).map (fun n => (n : Int))
  | _ => (parseHexMagnitude l).map (fun n => (n : Int))

/-- JavaScript ToUint32, the bit pattern bitwise operators act on.
NaN converts to 0, which the caller encodes with getD 0. -/
def jsToUint32 (n : Int) : Nat := (n.emod 4294967296).toNat

/-- hexToRgb (lines 84-95): strip one leading '#', trim, double a
3-digit form to 6 digits, reject other lengths, then read the integer
with parseInt(h, 16) and extract bytes with (int >> 16) & 255 etc.
A NaN from parseInt behaves as 0 under the bitwise operators. -/
def hexToRgb (hex : String) : Option Rgb :=
  if hex = "" then none
  else
    let h0 := trimChars (stripHash hex.toList)
    let h := if h0.length = 3 then (h0.map (fun c => [c, c])).flatten else h0
    if h.length ≠ 6 then none
    else
      let n : Int := (parseIntHex h).getD 0
      let u := jsToUint32 n
      some ⟨u / 65536 % 256, u / 256 % 256, u % 256⟩

/-! ## Relative luminance and contrast (index.tsx lines 97-112) -/

/-- Per-channel sRGB linearization (lines 98-101): v = c/255, then
v/12.92 below the 0.03928 breakpoint, else ((v+0.055)/1.055)^2.4. -/
noncomputable def chanLin (c : Nat) : ℝ :=
  let v : ℝ := (c : ℝ) / 255
  if v ≤ 0.03928 then v / 12.92 else ((v + 0.055) / 1.055) ^ (2.4 : ℝ)

/-- relLuminance (lines 97-103). -/
noncomputable def relLuminance (x : Rgb) : ℝ :=
  0.2126 * chanLin x.r + 0.7152 * chanLin x.g + 0.0722 * chanLin x.b

/-- contrastRatio (lines 105-112): 1 when either color fails to parse,
else (L1+0.05)/(L2+0.05) with the larger luminance on top. -/
noncomputable def contrastRatioOf (fg bg : String) : ℝ :=
  match hexToRgb fg, hexToRgb bg with
  | some a, some b =>
    let l1 := relLuminance a + 0.05
    let l2 := relLuminance b + 0.05
    if l2 < l1 then l1 / l2 else l2 / l1
  | _, _ => 1

/-- ensureReadable (lines 114-130): scan [desired, "#ffffff", "#000000"]
keeping the strictly-best ratio (initial best is the desired color with
ratio 0); return the best candidate when its ratio meets the threshold,
else whichever of "#fff" / "#000" contrasts more with the background. -/
noncomputable def ensureReadable (desiredText bg : String) (threshold : ℝ) : String :=
  let candidates := [desiredText, "#ffffff", "#000000"]
  let best := candidates.foldl
    (fun st c =>
      let r := contrastRatioOf c bg
      if st.2 < r then (c, r) else st)
    (desiredText, (0 : ℝ))
  if threshold ≤ best.2 then best.1
  else if contrastRatioOf "#000" bg ≤ contrastRatioOf "#fff" bg then "#fff" else "#000"

/-! ### Facts about parsing and luminance -/

lemma hexToRgb_le255 (s : String) (x : Rgb) (h : hexToRgb s = some x) :
    x.r ≤ 255 ∧ x.g ≤ 255 ∧ x.b ≤ 255 := by
  unfold hexToRgb at h
  dsimp only at h
  split_ifs at h
  all_goals first
    | exact Option.noConfusion h
    | (rw [Option.some.injEq] at h
       subst h
       refine ⟨?_, ?_, ?_⟩ <;> dsimp only <;> omega)

lemma hexToRgb_white : hexToRgb "#ffffff" = some ⟨255, 255, 255⟩ := by decide

lemma hexToRgb_black : hexToRgb "#000000" = some ⟨0, 0, 0⟩ := by decide

lemma hexToRgb_fff : hexToRgb "#fff" = some ⟨255, 255, 255⟩ := by decide

lemma hexToRgb_000 : hexToRgb "#000" = some ⟨0, 0, 0⟩ := by decide

lemma chanLin_nonneg (c : Nat) : 0 ≤ chanLin c := by
  unfold chanLin
  dsimp only
  split_ifs
  · positivity
  · exact Real.rpow_nonneg (by positivity) _

lemma chanLin_le_one (c : Nat) (h : c ≤ 255) : chanLin c ≤ 1 := by
  have hv : ((c : ℝ) / 255) ≤ 1 := by
    rw [div_le_one (by norm_num)]
    exact_mod_cast h
  unfold chanLin
  dsimp only
  split_ifs with hb
  · rw [div_le_one (by norm_num)]
    linarith
  · refine Real.rpow_le_one (by positivity) ?_ (by norm_num)
    rw [div_le_one (by norm_num)]
    linarith

lemma chanLin_255 : chanLin 255 = 1 := by
  unfold chanLin
  dsimp only
  rw [if_neg (by norm_num)]
  have h1 : ((255 : ℕ) : ℝ) / 255 = 1 := by norm_num
  rw [h1]
  have h2 : ((1 : ℝ) + 0.055) / 1.055 = 1 := by norm_num
  rw [h2, Real.one_rpow]

lemma chanLin_0 : chanLin 0 = 0 := by
  unfold chanLin
  dsimp only
  rw [if_pos (by norm_num)]
  norm_num

lemma relLuminance_nonneg (x : Rgb) : 0 ≤ relLuminance x := by
  unfold relLuminance
  have hr := chanLin_nonneg x.r
  have hg := chanLin_nonneg x.g
  have hb := chanLin_nonneg x.b
  nlinarith

lemma relLuminance_le_one (x : Rgb) (hr : x.r ≤ 255) (hg : x.g ≤ 255)
    (hb : x.b ≤ 255) : relLuminance x ≤ 1 := by
  unfold relLuminance
  have h1 := chanLin_le_one x.r hr
  have h2 := chanLin_le_one x.g hg
  have h3 := chanLin_le_one x.b hb
  have n1 := chanLin_nonneg x.r
  have n2 := chanLin_nonneg x.g
  have n3 := chanLin_nonneg x.b
  nlinarith

lemma relLuminance_white : relLuminance ⟨255, 255, 255⟩ = 1 := by
  unfold relLuminance
  simp only [chanLin_255]
  norm_num

lemma relLuminance_black : relLuminance ⟨0, 0, 0⟩ = 0 := by
  unfold relLuminance
  simp only [chanLin_0]
  norm_num

/-! ### Facts about the contrast ratio -/

/-- Closed form of contrastRatio when both colors parse. -/
lemma contrastRatioOf_some (fg bg : String) (a b : Rgb)
    (ha : hexToRgb fg = some a) (hb : hexToRgb bg = some b) :
    contrastRatioOf fg bg =
      if relLuminance b + 0.05 < relLuminance a + 0.05
      then (relLuminance a + 0.05) / (relLuminance b + 0.05)
      else (relLuminance b + 0.05) / (relLuminance a + 0.05) := by
  unfold contrastRatioOf
  rw [ha, hb]

/-- contrastRatio is 1 as soon as either color fails to parse. -/
lemma contrastRatioOf_unparseable (fg bg : String)
    (h : hexToRgb fg = none ∨ hexToRgb bg = none) : contrastRatioOf fg bg = 1 := by
  unfold contrastRatioOf
  rcases h with h | h
  · rw [h]
  · rw [h]
    rcases hexToRgb fg <;> rfl

lemma contrastRatioOf_one_le (fg bg : String) : 1 ≤ contrastRatioOf fg bg := by
  rcases hf : hexToRgb fg with _ | a
  · rw [contrastRatioOf_unparseable fg bg (Or.inl hf)]
  · rcases hb : hexToRgb bg with _ | b
    · rw [contrastRatioOf_unparseable fg bg (Or.inr hb)]
    · have ha0 := relLuminance_nonneg a
      have hb0 := relLuminance_nonneg b
      rw [contrastRatioOf_some fg bg a b hf hb]
      split_ifs with h
      · rw [le_div_iff₀ (by linarith)]
        linarith
      · rw [le_div_iff₀ (by linarith)]
        push_neg at h
        linarith

/-- contrastRatio with a pure white foreground, on a parseable background. -/
lemma contrastRatioOf_white_eq (bg : String) (b : Rgb) (hb : hexToRgb bg = some b) :
    contrastRatioOf "#ffffff" bg = 1.05 / (relLuminance b + 0.05) := by
  have hle := hexToRgb_le255 bg b hb
  have hLb : relLuminance b ≤ 1 := relLuminance_le_one b hle.1 hle.2.1 hle.2.2
  have hL0 : 0 ≤ relLuminance b := relLuminance_nonneg b
  rw [contrastRatioOf_some "#ffffff" bg ⟨255, 255, 255⟩ b hexToRgb_white hb,
    relLuminance_white]
  split_ifs with h
  · norm_num
  · push_neg at h
    have hb1 : relLuminance b = 1 := le_antisymm hLb (by linarith)
    rw [hb1]
    norm_num

/-- contrastRatio with a pure black foreground, on a parseable background. -/
lemma contrastRatioOf_black_eq (bg : String) (b : Rgb) (hb : hexToRgb bg = some b) :
    contrastRatioOf "#000000" bg = (relLuminance b + 0.05) / 0.05 := by
  have hL0 : 0 ≤ relLuminance b := relLuminance_nonneg b
  rw [contrastRatioOf_some "#000000" bg ⟨0, 0, 0⟩ b hexToRgb_black hb,
    relLuminance_black]
  rw [if_neg (by linarith)]
  norm_num

/-- The short forms used in the fallback branch rate identically to the
long forms used in the candidate scan. -/
lemma contrastRatioOf_fff (bg : String) :
    contrastRatioOf "#fff" bg = contrastRatioOf "#ffffff" bg := by
  unfold contrastRatioOf
  rw [hexToRgb_fff, hexToRgb_white]

lemma contrastRatioOf_000 (bg : String) :
    contrastRatioOf "#000" bg = contrastRatioOf "#000000" bg := by
  unfold contrastRatioOf
  rw [hexToRgb_000, hexToRgb_black]

/-- No color can contrast more against a background than the better of
pure white and pure black: luminance lies in [0, 1] and the ratio is
monotone toward the extremes. -/
lemma contrastRatioOf_le_max (c bg : String) :
    contrastRatioOf c bg
      ≤ max (contrastRatioOf "#ffffff" bg) (contrastRatioOf "#000000" bg) := by
  rcases hb : hexToRgb bg with _ | b
  · rw [contrastRatioOf_unparseable c bg (Or.inr hb)]
    exact le_trans (contrastRatioOf_one_le "#ffffff" bg) (le_max_left _ _)
  · rcases hc : hexToRgb c with _ | a
    · rw [contrastRatioOf_unparseable c bg (Or.inl hc)]
      exact le_trans (contrastRatioOf_one_le "#ffffff" bg) (le_max_left _ _)
    · have hcle := hexToRgb_le255 c a hc
      have hLa1 : relLuminance a ≤ 1 := relLuminance_le_one a hcle.1 hcle.2.1 hcle.2.2
      have hLa0 : 0 ≤ relLuminance a := relLuminance_nonneg a
      have hLb0 : 0 ≤ relLuminance b := relLuminance_nonneg b
      have hw := contrastRatioOf_white_eq bg b hb
      have hk := contrastRatioOf_black_eq bg b hb
      rw [contrastRatioOf_some c bg a b hc hb]
      split_ifs with h
      · refine le_trans ?_ (le_max_left _ _)
        rw [hw]
        gcongr <;> linarith
      · refine le_trans ?_ (le_max_right _ _)
        rw [hk]
        gcongr <;> linarith

lemma contrastRatioOf_le_or (c bg : String) :
    contrastRatioOf c bg ≤ contrastRatioOf "#ffffff" bg ∨
      contrastRatioOf c bg ≤ contrastRatioOf "#000000" bg :=
  le_max_iff.mp (contrastRatioOf_le_max c bg)

/-! ### Characterization of ensureReadable -/

/-- The three-candidate scan of ensureReadable, unrolled. -/
lemma ensureReadable_unfold (x bg : String) (t : ℝ) :
    ensureReadable x bg t =
      (let p1 : String × ℝ :=
        if (0 : ℝ) < contrastRatioOf x bg then (x, contrastRatioOf x bg) else (x, 0)
       let p2 : String × ℝ :=
        if p1.2 < contrastRatioOf "#ffffff" bg
          then ("#ffffff", contrastRatioOf "#ffffff" bg) else p1
       let p3 : String × ℝ :=
        if p2.2 < contrastRatioOf "#000000" bg
          then ("#000000", contrastRatioOf "#000000" bg) else p2
       if t ≤ p3.2 then p3.1
       else if contrastRatioOf "#000" bg ≤ contrastRatioOf "#fff" bg
         then "#fff" else "#000") := rfl

/-- The color ensureReadable returns realizes the best contrast ratio
achievable among the desired color, pure white and pure black. -/
lemma ensureReadable_ratio_eq (x bg : String) (t : ℝ) :
    contrastRatioOf (ensureReadable x bg t) bg =
      max (contrastRatioOf x bg)
        (max (contrastRatioOf "#ffffff" bg) (contrastRatioOf "#000000" bg)) := by
  have h1 := contrastRatioOf_one_le x bg
  have hW1 := contrastRatioOf_one_le "#ffffff" bg
  have hB1 := contrastRatioOf_one_le "#000000" bg
  have hXor := contrastRatioOf_le_or x bg
  have hFf := contrastRatioOf_fff bg
  have h00 := contrastRatioOf_000 bg
  rw [ensureReadable_unfold]
  dsimp only
  rw [if_pos (by linarith : (0 : ℝ) < contrastRatioOf x bg)]
  by_cases hW : contrastRatioOf x bg < contrastRatioOf "#ffffff" bg
  · rw [if_pos hW]
    dsimp only
    by_cases hB : contrastRatioOf "#ffffff" bg < contrastRatioOf "#000000" bg
    · rw [if_pos hB]
      dsimp only
      by_cases ht : t ≤ contrastRatioOf "#000000" bg
      · rw [if_pos ht]
        simp only [max_def]
        split_ifs <;> linarith
      · rw [if_neg ht, hFf, h00, if_neg (by linarith), h00]
        simp only [max_def]
        split_ifs <;> linarith
    · rw [if_neg hB]
      dsimp only
      by_cases ht : t ≤ contrastRatioOf "#ffffff" bg
      · rw [if_pos ht]
        simp only [max_def]
        split_ifs <;> linarith
      · rw [if_neg ht, hFf, h00, if_pos (by linarith), hFf]
        simp only [max_def]
        split_ifs <;> linarith
  · rw [if_neg hW]
    dsimp only
    by_cases hB : contrastRatioOf x bg < contrastRatioOf "#000000" bg
    · rw [if_pos hB]
      dsimp only
      by_cases ht : t ≤ contrastRatioOf "#000000" bg
      · rw [if_pos ht]
        simp only [max_def]
        split_ifs <;> linarith
      · rw [if_neg ht, hFf, h00, if_neg (by linarith), h00]
        simp only [max_def]
        split_ifs <;> linarith
    · rw [if_neg hB]
      dsimp only
      by_cases ht : t ≤ contrastRatioOf x bg
      · rw [if_pos ht]
        rcases hXor with hx | hx <;>
          (simp only [max_def]; split_ifs <;> linarith)
      · rw [if_neg ht]
        by_cases hc : contrastRatioOf "#000000" bg ≤ contrastRatioOf "#ffffff" bg
        · rw [hFf, h00, if_pos hc, hFf]
          rcases hXor with hx | hx <;>
            (simp only [max_def]; split_ifs <;> linarith)
        · rw [hFf, h00, if_neg hc, h00]
          rcases hXor with hx | hx <;>
            (simp only [max_def]; split_ifs <;> linarith)

/-- When even the best candidate misses the threshold, ensureReadable
forces the better of white and black (white on ties). -/
lemma ensureReadable_forced (x bg : String) (t : ℝ)
    (h : max (contrastRatioOf x bg)
        (max (contrastRatioOf "#ffffff" bg) (contrastRatioOf "#000000" bg)) < t) :
    ensureReadable x bg t =
      if contrastRatioOf "#000" bg ≤ contrastRatioOf "#fff" bg then "#fff" else "#000" := by
  have h1 := contrastRatioOf_one_le x bg
  have hxt : contrastRatioOf x bg < t := lt_of_le_of_lt (le_max_left _ _) h
  have hwt : contrastRatioOf "#ffffff" bg < t :=
    lt_of_le_of_lt (le_trans (le_max_left _ _) (le_max_right _ _)) h
  have hbt : contrastRatioOf "#000000" bg < t :=
    lt_of_le_of_lt (le_trans (le_max_right _ _) (le_max_right _ _)) h
  rw [ensureReadable_unfold]
  dsimp only
  rw [if_pos (by linarith : (0 : ℝ) < contrastRatioOf x bg)]
  by_cases hW : contrastRatioOf x bg < contrastRatioOf "#ffffff" bg
  · rw [if_pos hW]
    dsimp only
    by_cases hB : contrastRatioOf "#ffffff" bg < contrastRatioOf "#000000" bg
    · rw [if_pos hB]
      dsimp only
      rw [if_neg (by linarith)]
    · rw [if_neg hB]
      dsimp only
      rw [if_neg (by linarith)]
  · rw [if_neg hW]
    dsimp only
    by_cases hB : contrastRatioOf x bg < contrastRatioOf "#000000" bg
    · rw [if_pos hB]
      dsimp only
      rw [if_neg (by linarith)]
    · rw [if_neg hB]
      dsimp only
      rw [if_neg (by linarith)]

/-- When no other candidate strictly beats the desired color and the
desired color meets the threshold, the desired color is returned. -/
lemma ensureReadable_keeps_desired (x bg : String) (t : ℝ)
    (hW : contrastRatioOf "#ffffff" bg ≤ contrastRatioOf x bg)
    (hB : contrastRatioOf "#000000" bg ≤ contrastRatioOf x bg)
    (ht : t ≤ contrastRatioOf x bg) :
    ensureReadable x bg t = x := by
  have h1 := contrastRatioOf_one_le x bg
  rw [ensureReadable_unfold]
  dsimp only
  rw [if_pos (by linarith : (0 : ℝ) < contrastRatioOf x bg),
    if_neg (not_lt.mpr hW)]
  dsimp only
  rw [if_neg (not_lt.mpr hB)]
  dsimp only
  rw [if_pos ht]

/-! ### Concrete contrast values -/

lemma contrastRatioOf_white_white : contrastRatioOf "#ffffff" "#ffffff" = 1 := by
  rw [contrastRatioOf_some "#ffffff" "#ffffff" ⟨255, 255, 255⟩ ⟨255, 255, 255⟩
      hexToRgb_white hexToRgb_white, relLuminance_white]
  rw [if_neg (by norm_num)]
  norm_num

lemma contrastRatioOf_black_white : contrastRatioOf "#000000" "#ffffff" = 21 := by
  rw [contrastRatioOf_some "#000000" "#ffffff" ⟨0, 0, 0⟩ ⟨255, 255, 255⟩
      hexToRgb_black hexToRgb_white, relLuminance_white, relLuminance_black]
  rw [if_neg (by norm_num)]
  norm_num

lemma contrastRatioOf_white_black : contrastRatioOf "#ffffff" "#000000" = 21 := by
  rw [contrastRatioOf_some "#ffffff" "#000000" ⟨255, 255, 255⟩ ⟨0, 0, 0⟩
      hexToRgb_white hexToRgb_black, relLuminance_white, relLuminance_black]
  rw [if_pos (by norm_num)]
  norm_num

lemma contrastRatioOf_black_black : contrastRatioOf "#000000" "#000000" = 1 := by
  rw [contrastRatioOf_some "#000000" "#000000" ⟨0, 0, 0⟩ ⟨0, 0, 0⟩
      hexToRgb_black hexToRgb_black, relLuminance_black]
  rw [if_neg (by norm_num)]
  norm_num

lemma relLuminance_gray10 : relLuminance ⟨10, 10, 10⟩ = 10 / 255 / 12.92 := by
  have hc : chanLin 10 = (10 : ℝ) / 255 / 12.92 := by
    unfold chanLin
    dsimp only
    rw [if_pos (by norm_num)]
    norm_num
  unfold relLuminance
  dsimp only
  rw [hc]
  ring

lemma contrastRatioOf_gray10_white :
    contrastRatioOf "#0a0a0a" "#ffffff" = 1.05 / (10 / 255 / 12.92 + 0.05) := by
  rw [contrastRatioOf_some "#0a0a0a" "#ffffff" ⟨10, 10, 10⟩ ⟨255, 255, 255⟩
      (by decide) hexToRgb_white, relLuminance_gray10, relLuminance_white]
  rw [if_neg (by norm_num)]
  norm_num

/-! ## Claims C1, C2 and C10 -/

/-- C1: ensureReadable(x, bg, t) returns a color whose contrast ratio
against bg is at least t, or, when none of x / pure white / pure black
meets t, returns whichever of white and black has the higher ratio
against bg; in all cases the returned color's ratio against bg is the
maximum achievable among the candidates x, white, black. -/
theorem claimC1_ensureReadable_max (x bg : String) (t : ℝ) :
    contrastRatioOf (ensureReadable x bg t) bg =
      max (contrastRatioOf x bg)
        (max (contrastRatioOf "#ffffff" bg) (contrastRatioOf "#000000" bg))
    ∧ (t ≤ contrastRatioOf (ensureReadable x bg t) bg
      ∨ (contrastRatioOf x bg < t ∧ contrastRatioOf "#ffffff" bg < t ∧
          contrastRatioOf "#000000" bg < t ∧
          ensureReadable x bg t =
            if contrastRatioOf "#000" bg ≤ contrastRatioOf "#fff" bg
              then "#fff" else "#000")) := by
  refine ⟨ensureReadable_ratio_eq x bg t, ?_⟩
  by_cases h : max (contrastRatioOf x bg)
      (max (contrastRatioOf "#ffffff" bg) (contrastRatioOf "#000000" bg)) < t
  · refine Or.inr ⟨lt_of_le_of_lt (le_max_left _ _) h,
      lt_of_le_of_lt (le_trans (le_max_left _ _) (le_max_right _ _)) h,
      lt_of_le_of_lt (le_trans (le_max_right _ _) (le_max_right _ _)) h,
      ensureReadable_forced x bg t h⟩
  · left
    push_neg at h
    rw [ensureReadable_ratio_eq]
    exact h

/-- C2 counterexample: with background pure white and threshold 1, the
desired color #0a0a0a has ratio about 19.8 and therefore meets the
threshold, yet ensureReadable does not return it: pure black has the
strictly larger ratio 21, and the scan keeps the largest ratio rather
than the first candidate meeting the threshold. -/
theorem claimC2_counterexample :
    1 ≤ contrastRatioOf "#0a0a0a" "#ffffff" ∧
    ensureReadable "#0a0a0a" "#ffffff" 1 = "#000000" := by
  have hr1 := contrastRatioOf_gray10_white
  have hrW := contrastRatioOf_white_white
  have hrB := contrastRatioOf_black_white
  have hub : (1 : ℝ) ≤ 1.05 / (10 / 255 / 12.92 + 0.05) := by norm_num
  have hlt : (1.05 : ℝ) / (10 / 255 / 12.92 + 0.05) < 21 := by norm_num
  constructor
  · rw [hr1]
    exact hub
  · rw [ensureReadable_unfold]
    dsimp only
    rw [hr1, hrW, hrB]
    rw [if_pos (by linarith : (0 : ℝ) < 1.05 / (10 / 255 / 12.92 + 0.05))]
    dsimp only
    rw [if_neg (not_lt.mpr hub)]
    dsimp only
    rw [if_pos hlt]
    dsimp only
    rw [if_pos (by norm_num : (1 : ℝ) ≤ 21)]

/-- C2 amended: ensureReadable keeps the candidate with the strictly
highest ratio (earlier candidates win ties), returning it whenever its
ratio meets the threshold; in particular the desired color is returned
when it meets the threshold and no other candidate strictly beats it,
and only when even the best ratio misses the threshold is whichever of
white/black with the higher ratio forced. -/
theorem claimC2_amended_best_candidate (x bg : String) (t : ℝ) :
    (contrastRatioOf "#ffffff" bg ≤ contrastRatioOf x bg →
      contrastRatioOf "#000000" bg ≤ contrastRatioOf x bg →
      t ≤ contrastRatioOf x bg →
      ensureReadable x bg t = x)
    ∧ (t ≤ max (contrastRatioOf x bg)
        (max (contrastRatioOf "#ffffff" bg) (contrastRatioOf "#000000" bg)) →
      contrastRatioOf (ensureReadable x bg t) bg =
        max (contrastRatioOf x bg)
          (max (contrastRatioOf "#ffffff" bg) (contrastRatioOf "#000000" bg))
      ∧ t ≤ contrastRatioOf (ensureReadable x bg t) bg)
    ∧ (max (contrastRatioOf x bg)
        (max (contrastRatioOf "#ffffff" bg) (contrastRatioOf "#000000" bg)) < t →
      ensureReadable x bg t =
        if contrastRatioOf "#000" bg ≤ contrastRatioOf "#fff" bg
          then "#fff" else "#000") := by
  refine ⟨ensureReadable_keeps_desired x bg t, ?_, ensureReadable_forced x bg t⟩
  intro ht
  refine ⟨ensureReadable_ratio_eq x bg t, ?_⟩
  rw [ensureReadable_ratio_eq]
  exact ht

/-- C2 amended witness: on a black background with threshold 4.5, pure
white as the desired color ties with the white candidate at ratio 21
and beats black, so the desired color itself is returned. -/
theorem claimC2_amended_witness :
    ensureReadable "#ffffff" "#000000" 4.5 = "#ffffff" := by
  refine (claimC2_amended_best_candidate "#ffffff" "#000000" 4.5).1 ?_ ?_ ?_
  · rw [contrastRatioOf_white_black]
  · rw [contrastRatioOf_white_black, contrastRatioOf_black_black]
    norm_num
  · rw [contrastRatioOf_white_black]
    norm_num

/-- C10 counterexample: the 6-character string "zzzzzz" is not a valid
hex color, yet contrastRatio treats it as black (parseInt yields NaN,
and NaN behaves as 0 under the bitwise extraction), giving ratio 21
against white instead of 1; and with an unparseable background and a
threshold not above 1, ensureReadable returns the desired color, not
pure white. -/
theorem claimC10_counterexample :
    contrastRatioOf "zzzzzz" "#ffffff" = 21 ∧
    ensureReadable "#123456" "rgba(0,0,0,0.5)" 0.5 = "#123456" := by
  constructor
  · rw [contrastRatioOf_some "zzzzzz" "#ffffff" ⟨0, 0, 0⟩ ⟨255, 255, 255⟩
        (by decide) hexToRgb_white, relLuminance_white, relLuminance_black]
    rw [if_neg (by norm_num)]
    norm_num
  · have hbg : hexToRgb "rgba(0,0,0,0.5)" = none := by decide
    have hall : ∀ c, contrastRatioOf c "rgba(0,0,0,0.5)" = 1 := fun c =>
      contrastRatioOf_unparseable c "rgba(0,0,0,0.5)" (Or.inr hbg)
    rw [ensureReadable_unfold]
    dsimp only
    rw [hall "#123456", hall "#ffffff", hall "#000000"]
    rw [if_pos (by norm_num : (0 : ℝ) < 1)]
    dsimp only
    rw [if_neg (by norm_num : ¬((1 : ℝ) < 1))]
    dsimp only
    rw [if_neg (by norm_num : ¬((1 : ℝ) < 1))]
    dsimp only
    rw [if_pos (by norm_num : (0.5 : ℝ) ≤ 1)]

/-- C10 amended: contrastRatio returns exactly 1 whenever either
argument fails hexToRgb's length check (after hash-stripping, trimming
and 3-digit doubling the form is not 6 characters); 6-character non-hex
strings instead parse as black. Consequently, for an unparseable
background, ensureReadable returns pure white for every threshold
strictly above 1 (and the desired color itself otherwise). -/
theorem claimC10_amended_unparseable (fg bg x : String) (t : ℝ) :
    ((hexToRgb fg = none ∨ hexToRgb bg = none) → contrastRatioOf fg bg = 1)
    ∧ (hexToRgb bg = none → 1 < t → ensureReadable x bg t = "#fff") := by
  refine ⟨contrastRatioOf_unparseable fg bg, ?_⟩
  intro hbg ht
  have hall : ∀ c, contrastRatioOf c bg = 1 := fun c =>
    contrastRatioOf_unparseable c bg (Or.inr hbg)
  rw [ensureReadable_unfold]
  dsimp only
  rw [hall x, hall "#ffffff", hall "#000000", hall "#000", hall "#fff"]
  rw [if_pos (by norm_num : (0 : ℝ) < 1)]
  dsimp only
  rw [if_neg (by norm_num : ¬((1 : ℝ) < 1))]
  dsimp only
  rw [if_neg (by norm_num : ¬((1 : ℝ) < 1))]
  dsimp only
  rw [if_neg (not_le.mpr ht), if_pos le_rfl]

/-- C10 amended witness at concrete unparseable inputs. -/
theorem claimC10_amended_witness :
    contrastRatioOf "rgba(1,2,3)" "#fff" = 1 ∧
    ensureReadable "#123456" "not-a-color" 4.5 = "#fff" := by
  constructor
  · exact (claimC10_amended_unparseable "rgba(1,2,3)" "#fff" "#fff" 2).1
      (Or.inl (by decide))
  · exact (claimC10_amended_unparseable "#fff" "not-a-color" "#123456" 4.5).2
      (by decide) (by norm_num)

/-! ## Theme model (index.tsx lines 44-77, 132-256, 399-414) -/

inductive ColorScheme where
  | light
  | dark
deriving DecidableEq, Repr

/-- SemanticColors (lines 44-55). -/
structure SemanticColors where
  background : String
  surface : String
  header : String
  foreground : String
  mutedForeground : String
  border : String
  divider : String
  accent : String
  onAccent : String
  disabledForeground : String
deriving DecidableEq, Repr

structure Radii where
  xs : Int
  sm : Int
  md : Int
  lg : Int
  full : Int
deriving DecidableEq, Repr

structure Space where
  xs : Int
  sm : Int
  md : Int
  lg : Int
deriving DecidableEq, Repr

structure FontSizes where
  xs : Int
  sm : Int
  md : Int
  lg : Int
deriving DecidableEq, Repr

/-- Theme (lines 57-64). The shadows field is a platform ViewStyle with
no computational content relevant to any claim; it is modelled as Unit. -/
structure Theme where
  colorScheme : ColorScheme
  colors : SemanticColors
  radii : Radii
  space : Space
  fontSizes : FontSizes
  shadows : Unit
deriving DecidableEq, Repr

/-- ThemePalette (lines 66-70). -/
structure ThemePalette where
  primary : Option String := none
  secondary : Option String := none
  accent : Option String := none
deriving DecidableEq, Repr

/-- Partial SemanticColors, for overrides and for a partially-typed
theme prop. -/
structure PartialSemanticColors where
  background : Option String := none
  surface : Option String := none
  header : Option String := none
  foreground : Option String := none
  mutedForeground : Option String := none
  border : Option String := none
  divider : Option String := none
  accent : Option String := none
  onAccent : Option String := none
  disabledForeground : Option String := none
deriving DecidableEq, Repr

/-- overrides: Partial of Theme together with a partial colors record
(line 75). -/
structure ThemeOverrides where
  colorScheme : Option ColorScheme := none
  colors : Option PartialSemanticColors := none
  radii : Option Radii := none
  space : Option Space := none
  fontSizes : Option FontSizes := none
  shadows : Option Unit := none
deriving DecidableEq, Repr

/-- options of CreateThemeInput (line 76). -/
structure ThemeOptions where
  contrastThreshold : Option ℝ := none
  autoContrast : Option Bool := none

/-- CreateThemeInput (lines 72-77). -/
structure CreateThemeInput where
  preset : Option ColorScheme := none
  palette : Option ThemePalette := none
  overrides : Option ThemeOverrides := none
  options : Option ThemeOptions := none

/-- LIGHT preset (lines 142-153). -/
def LIGHT : SemanticColors :=
  { background := "#ffffff"
    surface := "#ffffff"
    header := "#ffffff"
    foreground := "#111827"
    mutedForeground := "#6B7280"
    border := "#e5e7eb"
    divider := "#e5e7eb"
    accent := "#2563eb"
    onAccent := "#ffffff"
    disabledForeground := "#9CA3AF" }

/-- DARK preset (lines 155-166). -/
def DARK : SemanticColors :=
  { background := "#0f1115"
    surface := "#171923"
    header := "#171923"
    foreground := "#e5e7eb"
    mutedForeground := "#9ca3af"
    border := "#232735"
    divider := "#232735"
    accent := "#2563eb"
    onAccent := "#ffffff"
    disabledForeground := "#6b7280" }

/-- DEFAULT_THEME (lines 168-184); the Platform.select shadow style is
presentation-only and is represented by Unit. -/
def DEFAULT_THEME : Theme :=
  { colorScheme := ColorScheme.dark
    colors := DARK
    radii := { xs := 6, sm := 8, md := 12, lg := 20, full := 9999 }
    space := { xs := 6, sm := 12, md := 16, lg := 20 }
    fontSizes := { xs := 12, sm := 13, md := 15, lg := 18 }
    shadows := () }

/-- withAlpha (lines 132-136). The JavaScript template literal renders
the alpha number in its decimal form; since only that textual form ever
enters the produced color expression, alpha is passed here already
rendered ("0.7", "0.15", "0.4" at the call sites in createTheme). -/
def withAlpha (hex : String) (alpha : String) : String :=
  match hexToRgb hex with
  | none => hex
  | some rgb =>
    "rgba(" ++ toString rgb.r ++ "," ++ toString rgb.g ++ ","
      ++ toString rgb.b ++ "," ++ alpha ++ ")"

/-- Spread {...base.colors, ...overrides.colors}: keys present in the
override win key-by-key. -/
def mergeColors (base : SemanticColors) (o : Option PartialSemanticColors) :
    SemanticColors :=
  match o with
  | none => base
  | some p =>
    { background := p.background.getD base.background
      surface := p.surface.getD base.surface
      header := p.header.getD base.header
      foreground := p.foreground.getD base.foreground
      mutedForeground := p.mutedForeground.getD base.mutedForeground
      border := p.border.getD base.border
      divider := p.divider.getD base.divider
      accent := p.accent.getD base.accent
      onAccent := p.onAccent.getD base.onAccent
      disabledForeground := p.disabledForeground.getD base.disabledForeground }

/-- extendTheme (lines 232-241): {...base, ...overrides} shallow for
root fields, with colors merged key-by-key. -/
def extendTheme (base : Theme) (overrides : ThemeOverrides) : Theme :=
  { colorScheme := overrides.colorScheme.getD base.colorScheme
    colors := mergeColors base.colors overrides.colors
    radii := overrides.radii.getD base.radii
    space := overrides.space.getD base.space
    fontSizes := overrides.fontSizes.getD base.fontSizes
    shadows := overrides.shadows.getD base.shadows }

/-- createTheme (lines 186-230). -/
noncomputable def createTheme (input : CreateThemeInput) : Theme :=
  let preset := input.preset.getD ColorScheme.dark
  let palette := input.palette.getD {}
  let overrides := input.overrides.getD {}
  let options := input.options.getD {}
  let baseScheme := if preset = ColorScheme.light then LIGHT else DARK
  let primary := palette.primary.getD baseScheme.background
  let secondary := palette.secondary.getD baseScheme.foreground
  let accent := palette.accent.getD baseScheme.accent
  let threshold := options.contrastThreshold.getD 4.5
  let autoContrast := options.autoContrast.getD true
  let foreground := ensureReadable secondary primary threshold
  let resolved : Theme :=
    { colorScheme := preset
      colors :=
        { background := primary
          surface := primary
          header := primary
          foreground := foreground
          mutedForeground := withAlpha foreground "0.7"
          border := withAlpha foreground "0.15"
          divider := withAlpha foreground "0.15"
          accent := accent
          onAccent := if autoContrast then ensureReadable foreground accent threshold
            else foreground
          disabledForeground := withAlpha foreground "0.4" }
      radii := DEFAULT_THEME.radii
      space := DEFAULT_THEME.space
      fontSizes := DEFAULT_THEME.fontSizes
      shadows := DEFAULT_THEME.shadows }
  extendTheme resolved overrides

/-- A fully-resolved Theme viewed as an override record with every field
present; spreading it over a base replaces everything, which is what
extendTheme(ctx, created) does with the full theme created by
createTheme. -/
def fullThemeAsOverrides (t : Theme) : ThemeOverrides :=
  { colorScheme := some t.colorScheme
    colors := some
      { background := some t.colors.background
        surface := some t.colors.surface
        header := some t.colors.header
        foreground := some t.colors.foreground
        mutedForeground := some t.colors.mutedForeground
        border := some t.colors.border
        divider := some t.colors.divider
        accent := some t.colors.accent
        onAccent := some t.colors.onAccent
        disabledForeground := some t.colors.disabledForeground }
    radii := some t.radii
    space := some t.space
    fontSizes := some t.fontSizes
    shadows := some t.shadows }

/-- The shape of the value accepted by the theme prop
(Theme | CreateThemeInput at the type level, plus the legacy shape the
README documents as still supported): every field the component might
probe, each optional. The legacy radius/typography fields play no role
in any claim and are omitted. -/
structure ThemeProp where
  colorScheme : Option ColorScheme := none
  colors : Option PartialSemanticColors := none
  radii : Option Radii := none
  space : Option Space := none
  fontSizes : Option FontSizes := none
  shadows : Option Unit := none
  preset : Option ColorScheme := none
  palette : Option ThemePalette := none
  overrides : Option ThemeOverrides := none
  options : Option ThemeOptions := none
  primary : Option String := none
  secondary : Option String := none

/-- JavaScript truthiness of an optional string field: present and
non-empty. -/
def jsTruthyStr (o : Option String) : Bool :=
  match o with
  | some s => s ≠ ""
  | none => false

/-- The cast (theme as CreateThemeInput): createTheme reads only the
preset / palette / overrides / options keys. -/
def createInputOfProp (t : ThemeProp) : CreateThemeInput :=
  { preset := t.preset
    palette := t.palette
    overrides := t.overrides
    options := t.options }

/-- The cast (theme as Theme) spread over the context by extendTheme:
only the Theme-shaped own properties take part in the spread. -/
def overridesOfProp (t : ThemeProp) : ThemeOverrides :=
  { colorScheme := t.colorScheme
    colors := t.colors
    radii := t.radii
    space := t.space
    fontSizes := t.fontSizes
    shadows := t.shadows }

/-- THEME resolution (lines 399-414): prefer the context when no prop is
given; trust the prop as a Theme when it carries colors.foreground and a
colorScheme; otherwise treat it as CreateThemeInput, build a theme with
createTheme and spread it over the context. -/
noncomputable def resolveThemeProp (theme : Option ThemeProp) (ctx : Theme) : Theme :=
  match theme with
  | none => ctx
  | some t =>
    if jsTruthyStr (t.colors.bind (fun c => c.foreground)) && t.colorScheme.isSome then
      extendTheme ctx (overridesOfProp t)
    else
      extendTheme ctx (fullThemeAsOverrides (createTheme (createInputOfProp t)))

/-! ## Claim C9 -/

lemma contrastRatioOf_000_fff : contrastRatioOf "#000" "#fff" = 21 := by
  rw [contrastRatioOf_some "#000" "#fff" ⟨0, 0, 0⟩ ⟨255, 255, 255⟩
      hexToRgb_000 hexToRgb_fff, relLuminance_white, relLuminance_black]
  rw [if_neg (by norm_num)]
  norm_num

lemma contrastRatioOf_white_fff : contrastRatioOf "#ffffff" "#fff" = 1 := by
  rw [contrastRatioOf_some "#ffffff" "#fff" ⟨255, 255, 255⟩ ⟨255, 255, 255⟩
      hexToRgb_white hexToRgb_fff, relLuminance_white]
  rw [if_neg (by norm_num)]
  norm_num

lemma contrastRatioOf_black_fff : contrastRatioOf "#000000" "#fff" = 21 := by
  rw [contrastRatioOf_some "#000000" "#fff" ⟨0, 0, 0⟩ ⟨255, 255, 255⟩
      hexToRgb_black hexToRgb_fff, relLuminance_white, relLuminance_black]
  rw [if_neg (by norm_num)]
  norm_num

/-- The legacy theme shape of the claim: only primary and secondary. -/
def legacyThemeInput : ThemeProp :=
  { primary := some "#fff", secondary := some "#000" }

/-- The creation request the claim pairs with it. -/
def creationThemeInput : ThemeProp :=
  { preset := some ColorScheme.light
    palette := some { primary := some "#fff", secondary := some "#000" } }

/-- C9: the legacy shape (primary #fff, secondary #000) is routed into
createTheme, which reads none of its keys: the result is the dark
preset, background #0f1115, while the equivalent creation request
produces a white surface (#fff) with black readable text (#000). The
two are not perceptually equivalent, although the README documents the
legacy shape as still supported; the code drops its primary/secondary. -/
theorem claimC9_legacy_vs_creation :
    (resolveThemeProp (some legacyThemeInput) DEFAULT_THEME).colors.background
      = "#0f1115"
    ∧ (resolveThemeProp (some creationThemeInput) DEFAULT_THEME).colors.background
      = "#fff"
    ∧ (resolveThemeProp (some creationThemeInput) DEFAULT_THEME).colors.foreground
      = "#000" := by
  refine ⟨rfl, rfl, ?_⟩
  show ensureReadable "#000" "#fff" 4.5 = "#000"
  apply ensureReadable_keeps_desired
  · rw [contrastRatioOf_white_fff, contrastRatioOf_000_fff]
    norm_num
  · rw [contrastRatioOf_black_fff, contrastRatioOf_000_fff]
  · rw [contrastRatioOf_000_fff]
    norm_num

/-! ## JavaScript Date model

The picker manipulates Date values through the constructor
new Date(year, month, day), setHours / setMinutes / setDate /
setFullYear, getDay / getDate / getTime, and relational comparison.
A Date is modelled by its normalized civil fields (year, month 0-11,
day 1-31) plus the minute of day (the code never touches seconds or
milliseconds). Field normalization (month carry, day borrow/carry)
follows ECMAScript MakeDay; absolute day numbers use the standard
civil-calendar formula, anchored so that 1970-01-01 is day 0. -/

/-- Gregorian leap year. -/
def isLeap (y : Int) : Bool :=
  (y % 4 == 0 && y % 100 != 0) || y % 400 == 0

/-- Length of month m (0-based) of year y, for m in 0..11. -/
def daysInMonth (y m : Int) : Int :=
  if m = 1 then (if isLeap y then 29 else 28)
  else if m = 3 ∨ m = 5 ∨ m = 8 ∨ m = 10 then 30
  else 31

lemma daysInMonth_bounds (y m : Int) :
    28 ≤ daysInMonth y m ∧ daysInMonth y m ≤ 31 := by
  unfold daysInMonth
  split_ifs <;> norm_num

def prevYM (y m : Int) : Int × Int := if m = 0 then (y - 1, 11) else (y, m - 1)

def nextYM (y m : Int) : Int × Int := if m = 11 then (y + 1, 0) else (y, m + 1)

/-- Day-of-month normalization: borrow from the previous month while
the day is below 1, carry into the next month while it exceeds the
month length. The fuel bounds the number of borrow/carry steps; normD
below supplies enough of it for every input. -/
def normDGo : Nat → Int → Int → Int → Int × Int × Int
  | 0, y, m, d => (y, m, d)
  | f + 1, y, m, d =>
    if d < 1 then
      normDGo f (prevYM y m).1 (prevYM y m).2 (d + daysInMonth (prevYM y m).1 (prevYM y m).2)
    else if daysInMonth y m < d then
      normDGo f (nextYM y m).1 (nextYM y m).2 (d - daysInMonth y m)
    else (y, m, d)

/-- Normalize (year, month 0-11, arbitrary day) to civil fields. Each
borrow/carry moves the day at least 28 closer to range, so natAbs d + 2
steps always suffice. -/
def normD (y m d : Int) : Int × Int × Int := normDGo (d.natAbs + 2) y m d

/-- new Date(y, m, d): months carry into years with floor semantics,
then the day is normalized. -/
def mkYMD (y m d : Int) : Int × Int × Int :=
  normD (y + m.fdiv 12) (m % 12) d

structure JSDate where
  year : Int
  month : Int
  day : Int
  minute : Int
deriving DecidableEq, Repr

/-- new Date(y, m, d) at a given minute of day (0 for the plain
constructor). -/
def mkDate (y m d : Int) (minute : Int) : JSDate :=
  let f := mkYMD y m d
  ⟨f.1, f.2.1, f.2.2, minute⟩

/-- Absolute day number of civil (y, m 0-based, d), day 0 = 1970-01-01
(standard era-based civil calendar arithmetic; linear in d). -/
def daysFromCivil (y m d : Int) : Int :=
  let yAdj := if m ≤ 1 then y - 1 else y
  let era := yAdj.fdiv 400
  let yoe := yAdj - era * 400
  let mp := (m + 10) % 12
  let doy := (153 * mp + 2).fdiv 5 + (d - 1)
  let doe := yoe * 365 + yoe.fdiv 4 - yoe.fdiv 100 + doy
  era * 146097 + doe - 719468

/-- getTime, in minutes rather than milliseconds: only order and
equality of timestamps are ever consumed, and the rescaling by 60000 is
strictly monotone. -/
def getTime (dt : JSDate) : Int :=
  daysFromCivil dt.year dt.month dt.day * 1440 + dt.minute

/-- getDay: day of week, Sunday = 0; 1970-01-01 was a Thursday. -/
def getDay (dt : JSDate) : Int :=
  (daysFromCivil dt.year dt.month dt.day + 4) % 7

/-- stripTime (lines 263-267): zero the time of day. -/
def stripTime (dt : JSDate) : JSDate := ⟨dt.year, dt.month, dt.day, 0⟩

/-- addYears (lines 274-278): setFullYear keeps month and day-of-month,
renormalizing (Feb 29 of a non-leap target year becomes Mar 1), and
keeps the time of day. -/
def addYears (dt : JSDate) (n : Int) : JSDate :=
  let f := normD (dt.year + n) dt.month dt.day
  ⟨f.1, f.2.1, f.2.2, dt.minute⟩

/-- setHours(h): replace the hour, keep the minute within the hour,
rolling the date when the result leaves the day (the picker only ever
passes 0..23). -/
def setHours (dt : JSDate) (h : Int) : JSDate :=
  let t := h * 60 + dt.minute.emod 60
  let f := normD dt.year dt.month (dt.day + t.fdiv 1440)
  ⟨f.1, f.2.1, f.2.2, t.emod 1440⟩

/-- setMinutes(mi): replace the minute within the hour, keep the hour. -/
def setMinutes (dt : JSDate) (mi : Int) : JSDate :=
  let t := dt.minute.fdiv 60 * 60 + mi
  let f := normD dt.year dt.month (dt.day + t.fdiv 1440)
  ⟨f.1, f.2.1, f.2.2, t.emod 1440⟩

/-- between (lines 286-291): day-precision containment with optional
bounds (an absent bound is minus/plus infinity in the code). -/
def betweenDates (d : JSDate) (min max : Option JSDate) : Bool :=
  let t := getTime (stripTime d)
  (match min with
   | some mn => decide (getTime (stripTime mn) ≤ t)
   | none => true)
  && (match max with
      | some mx => decide (t ≤ getTime (stripTime mx))
      | none => true)

/-- new Date(Math.min(a.getTime(), b.getTime())) for two dates already
in normalized form: the earlier of the two. -/
def dateMin (a b : JSDate) : JSDate := if getTime a ≤ getTime b then a else b

/-- new Date(Math.max(a.getTime(), b.getTime())): the later of the two. -/
def dateMax (a b : JSDate) : JSDate := if getTime b ≤ getTime a then a else b

/-- effectiveMax (lines 418-430): the age-based bound comes from minAge
(latest selectable birth date), intersected with maxDate by Math.min. -/
def effectiveMax (now : JSDate) (maxDate : Option JSDate) (minAge : Option Int) :
    Option JSDate :=
  let ageBasedMax := minAge.map (fun a => stripTime (addYears now (-a)))
  match maxDate, ageBasedMax with
  | some md, some ab => some (dateMin (stripTime md) ab)
  | some md, none => some (stripTime md)
  | none, some ab => some (stripTime ab)
  | none, none => none

/-- effectiveMin (lines 432-442): the age-based bound comes from maxAge
(earliest selectable birth date), intersected with minDate by Math.max. -/
def effectiveMin (now : JSDate) (minDate : Option JSDate) (maxAge : Option Int) :
    Option JSDate :=
  let ageBasedMin := maxAge.map (fun a => stripTime (addYears now (-a)))
  match minDate, ageBasedMin with
  | some md, some ab => some (dateMax (stripTime md) ab)
  | some md, none => some (stripTime md)
  | none, some ab => some (stripTime ab)
  | none, none => none

/-! ## Month matrix (index.tsx lines 298-320) -/

structure DayCell where
  date : JSDate
  inMonth : Bool
deriving DecidableEq, Repr

/-- nd.setDate(nd.getDate() + 1): the next civil day, keeping the time. -/
def succDay (dt : JSDate) : JSDate :=
  let f := normD dt.year dt.month (dt.day + 1)
  ⟨f.1, f.2.1, f.2.2, dt.minute⟩

/-- The while-loop of lines 311-316: push the successor of the last
cell until the count is a multiple of 7. The fuel is the exact number
of pushes still needed, so the loop guard and the fuel run out
together. -/
def padGo : Nat → List DayCell → List DayCell
  | 0, cells => cells
  | f + 1, cells =>
    if cells.length % 7 = 0 then cells
    else
      match cells.getLast? with
      | some c => padGo f (cells ++ [⟨succDay c.date, false⟩])
      | none => cells

def padCells (cells : List DayCell) : List DayCell :=
  padGo ((7 - cells.length % 7) % 7) cells

/-- The slicing loop of lines 317-318: rows of 7 consecutive cells. -/
def chunk7Go : Nat → List DayCell → List (List DayCell)
  | 0, _ => []
  | f + 1, l =>
    match l with
    | [] => []
    | _ => l.take 7 :: chunk7Go f (l.drop 7)

def chunk7 (l : List DayCell) : List (List DayCell) := chunk7Go l.length l

/-- getMonthMatrix (lines 298-320). startDay uses the JavaScript %
operator (a truncating remainder, Int.tmod); the leading cells run the
for-loop `for i in [0, startDay)`, the in-month cells
`for d in [1, daysInMonth]`, then the padding loop completes the last
week and the cells are sliced into rows of 7. -/
def getMonthMatrix (year month firstDayOfWeek : Int) : List (List DayCell) :=
  let firstOfMonth := mkDate year month 1 0
  let startDay := (getDay firstOfMonth - firstDayOfWeek + 7).tmod 7
  let daysInM := (mkDate year (month + 1) 0 0).day
  let leading := (List.range startDay.toNat).map (fun (i : Nat) =>
    ({ date := mkDate year month ((i : Int) - startDay + 1) 0, inMonth := false } : DayCell))
  let inMonthCells := (List.range daysInM.toNat).map (fun (i : Nat) =>
    ({ date := mkDate year month ((i : Int) + 1) 0, inMonth := true } : DayCell))
  chunk7 (padCells (leading ++ inMonthCells))

/-! ### Facts about the date model -/

/-- Normalization leaves an in-range day untouched. -/
lemma normD_of_range (y m d : Int) (h1 : 1 ≤ d) (h2 : d ≤ daysInMonth y m) :
    normD y m d = (y, m, d) := by
  unfold normD
  simp only [normDGo]
  rw [if_neg (by omega), if_neg (by omega)]

/-- Day 0 of month m (m nonzero) is the last day of month m-1. -/
lemma normD_zero (y m : Int) (hm : m ≠ 0) :
    normD y m 0 = (y, m - 1, daysInMonth y (m - 1)) := by
  have hb := fun k => (by unfold daysInMonth; split_ifs <;> norm_num :
    28 ≤ daysInMonth y k ∧ daysInMonth y k ≤ 31)
  unfold normD
  simp only [normDGo]
  rw [if_pos (by omega : (0 : Int) < 1)]
  unfold prevYM
  rw [if_neg hm]
  simp only
  rw [if_neg (by have := hb (m - 1); omega), if_neg (by omega)]
  simp [(hb (m - 1)).1]

/-- Day 0 of January is the last day of the previous December. -/
lemma normD_zero_m0 (y : Int) : normD y 0 0 = (y - 1, 11, 31) := by
  have h31 : daysInMonth (y - 1) 11 = 31 := by norm_num [daysInMonth]
  unfold normD
  simp only [normDGo]
  rw [if_pos (by omega : (0 : Int) < 1)]
  unfold prevYM
  rw [if_pos rfl]
  simp only [h31]
  rw [if_neg (by omega), if_neg (by omega)]
  norm_num

/-- new Date(year, month + 1, 0).getDate() is the length of month
(0-based) month, the code's daysInMonth computation (line 301). -/
lemma mkDate_zero_day (y m : Int) (h0 : 0 ≤ m) (h11 : m ≤ 11) :
    (mkDate y (m + 1) 0 0).day = daysInMonth y m := by
  unfold mkDate mkYMD
  by_cases hm : m = 11
  · subst hm
    rw [show ((11 : Int) + 1) = 12 from rfl]
    rw [show Int.fdiv 12 12 = 1 by decide, show ((12 : Int) % 12) = 0 by decide,
      normD_zero_m0]
    norm_num [daysInMonth]
  · rw [Int.fdiv_eq_ediv _ (by norm_num : (0 : Int) ≤ 12),
      Int.ediv_eq_zero_of_lt (by omega) (by omega),
      Int.emod_eq_of_lt (by omega) (by omega),
      normD_zero _ _ (by omega)]
    simp

lemma getDay_bounds (dt : JSDate) : 0 ≤ getDay dt ∧ getDay dt < 7 :=
  ⟨Int.emod_nonneg _ (by norm_num), Int.emod_lt_of_pos _ (by norm_num)⟩

/-- The padding loop appends exactly its fuel when the fuel is the
distance to the next multiple of 7. -/
lemma padGo_length (fuel : Nat) : ∀ cells : List DayCell, cells ≠ [] →
    (cells.length + fuel) % 7 = 0 → fuel < 7 →
    (padGo fuel cells).length = cells.length + fuel := by
  induction fuel with
  | zero =>
    intro cells _ _ _
    simp [padGo]
  | succ f ih =>
    intro cells hne hmod hlt
    unfold padGo
    rw [if_neg (by omega)]
    cases hl : cells.getLast? with
    | none => exact absurd (List.getLast?_eq_none_iff.mp hl) hne
    | some c =>
      rw [ih _ (by simp) (by simp; omega) (by omega)]
      simp
      omega

/-- The slicing loop produces length/7 rows of 7 cells each when the
cell count is a multiple of 7 (and the fuel covers the length). -/
lemma chunk7Go_spec (fuel : Nat) : ∀ l : List DayCell, l.length ≤ fuel →
    l.length % 7 = 0 →
    (chunk7Go fuel l).length = l.length / 7 ∧
      ∀ r ∈ chunk7Go fuel l, r.length = 7 := by
  induction fuel with
  | zero =>
    intro l h1 _
    have hnil : l = [] := List.eq_nil_of_length_eq_zero (by omega)
    subst hnil
    simp [chunk7Go]
  | succ f ih =>
    intro l hlen hmod
    cases l with
    | nil => simp [chunk7Go]
    | cons a as =>
      have hstep : chunk7Go (f + 1) (a :: as) =
          (a :: as).take 7 :: chunk7Go f ((a :: as).drop 7) := rfl
      have hlen1 : (a :: as).length = as.length + 1 := by simp
      have hm2 : (as.length + 1) % 7 = 0 := by
        rw [hlen1] at hmod
        exact hmod
      have hl2 : as.length + 1 ≤ f + 1 := by
        rw [hlen1] at hlen
        exact hlen
      have hdlen : ((a :: as).drop 7).length = as.length + 1 - 7 := by
        rw [List.length_drop, hlen1]
      obtain ⟨ih1, ih2⟩ := ih ((a :: as).drop 7)
        (by rw [hdlen]; omega) (by rw [hdlen]; omega)
      constructor
      · rw [hstep, List.length_cons, ih1, hdlen, hlen1]
        omega
      · intro r hr
        rw [hstep] at hr
        rcases List.mem_cons.mp hr with rfl | hr2
        · rw [List.length_take, hlen1]
          omega
        · exact ih2 r hr2

/-- Shape of the sliced, padded cell list. -/
lemma matrixShape (l : List DayCell) (hne : l ≠ []) :
    (∀ r ∈ chunk7 (padCells l), r.length = 7)
    ∧ (chunk7 (padCells l)).length = (l.length + 6) / 7 := by
  have hpadlen : (padCells l).length = l.length + (7 - l.length % 7) % 7 :=
    padGo_length _ l hne (by omega) (by omega)
  obtain ⟨h1, h2⟩ := chunk7Go_spec (padCells l).length (padCells l) le_rfl
    (by omega)
  refine ⟨h2, ?_⟩
  show (chunk7Go (padCells l).length (padCells l)).length = _
  rw [h1, hpadlen]
  omega

/-! ## Claim C3 -/

/-- The effective maximum exactly as the spec words it: the
day-precision minimum of stripTime(maxDate) and stripTime(today shifted
back by minAge years) when both are present, else whichever is present,
else unbounded. -/
def specEffectiveMax (now : JSDate) (maxDate : Option JSDate) (minAge : Option Int) :
    Option JSDate :=
  let today := stripTime now
  match maxDate, minAge with
  | some md, some a => some (dateMin (stripTime md) (stripTime (addYears today (-a))))
  | some md, none => some (stripTime md)
  | none, some a => some (stripTime (addYears today (-a)))
  | none, none => none

/-- The effective minimum as the spec words it: the day-precision
maximum of stripTime(minDate) and stripTime(today shifted back by
maxAge years). -/
def specEffectiveMin (now : JSDate) (minDate : Option JSDate) (maxAge : Option Int) :
    Option JSDate :=
  let today := stripTime now
  match minDate, maxAge with
  | some md, some a => some (dateMax (stripTime md) (stripTime (addYears today (-a))))
  | some md, none => some (stripTime md)
  | none, some a => some (stripTime (addYears today (-a)))
  | none, none => none

/-- C3: the code's effective bounds agree with the spec formula for
every combination of present/absent inputs, and on the spec's own
example (today = 2024-06-15): minAge 18 alone gives max 2006-06-15, and
adding maxDate 2005-01-01 narrows it to 2005-01-01. -/
theorem claimC3_effective_bounds :
    (∀ (now : JSDate) (maxDate : Option JSDate) (minAge : Option Int),
      effectiveMax now maxDate minAge = specEffectiveMax now maxDate minAge)
    ∧ (∀ (now : JSDate) (minDate : Option JSDate) (maxAge : Option Int),
      effectiveMin now minDate maxAge = specEffectiveMin now minDate maxAge)
    ∧ effectiveMax (mkDate 2024 5 15 617) none (some 18) = some (mkDate 2006 5 15 0)
    ∧ effectiveMax (mkDate 2024 5 15 617) (some (mkDate 2005 0 1 711)) (some 18)
        = some (mkDate 2005 0 1 0) := by
  refine ⟨?_, ?_, ?_, ?_⟩
  · intro now maxDate minAge
    rcases maxDate with _ | md <;> rcases minAge with _ | a <;> rfl
  · intro now minDate maxAge
    rcases minDate with _ | md <;> rcases maxAge with _ | a <;> rfl
  · decide
  · decide

/-! ## Claim C8 -/

/-- C8 counterexample: contradictory explicit bounds are not
reconciled. With minDate 2025-01-01 and maxDate 2020-01-01, both
effective bounds are defined and effectiveMin lands strictly after
effectiveMax. -/
theorem claimC8_counterexample :
    effectiveMin (mkDate 2024 5 15 0) (some (mkDate 2025 0 1 0)) none
      = some (mkDate 2025 0 1 0)
    ∧ effectiveMax (mkDate 2024 5 15 0) (some (mkDate 2020 0 1 0)) none
      = some (mkDate 2020 0 1 0)
    ∧ getTime (mkDate 2020 0 1 0) < getTime (mkDate 2025 0 1 0) := by
  refine ⟨by decide, by decide, by decide⟩

/-- A defined effective minimum is one of the two lower-bound sources. -/
lemma effectiveMin_mem (now : JSDate) (minD : Option JSDate) (maxA : Option Int)
    (lo : JSDate) (h : effectiveMin now minD maxA = some lo) :
    (∃ a, minD = some a ∧ lo = stripTime a)
    ∨ (∃ x, maxA = some x ∧ lo = stripTime (addYears now (-x))) := by
  rcases minD with _ | a
  · rcases maxA with _ | x
    · exact Option.noConfusion h
    · right
      refine ⟨x, rfl, ?_⟩
      injection h with h2
      exact h2.symm
  · rcases maxA with _ | x
    · left
      refine ⟨a, rfl, ?_⟩
      injection h with h2
      exact h2.symm
    · have h2 : dateMax (stripTime a) (stripTime (addYears now (-x))) = lo := by
        injection h
      unfold dateMax at h2
      split_ifs at h2
      · exact Or.inl ⟨a, rfl, h2.symm⟩
      · exact Or.inr ⟨x, rfl, h2.symm⟩

/-- A defined effective maximum is one of the two upper-bound sources. -/
lemma effectiveMax_mem (now : JSDate) (maxD : Option JSDate) (minA : Option Int)
    (hi : JSDate) (h : effectiveMax now maxD minA = some hi) :
    (∃ b, maxD = some b ∧ hi = stripTime b)
    ∨ (∃ n, minA = some n ∧ hi = stripTime (addYears now (-n))) := by
  rcases maxD with _ | b
  · rcases minA with _ | n
    · exact Option.noConfusion h
    · right
      refine ⟨n, rfl, ?_⟩
      injection h with h2
      exact h2.symm
  · rcases minA with _ | n
    · left
      refine ⟨b, rfl, ?_⟩
      injection h with h2
      exact h2.symm
    · have h2 : dateMin (stripTime b) (stripTime (addYears now (-n))) = hi := by
        injection h
      unfold dateMin at h2
      split_ifs at h2
      · exact Or.inl ⟨b, rfl, h2.symm⟩
      · exact Or.inr ⟨n, rfl, h2.symm⟩

/-- C8 amended: whenever the supplied constraint sources are pairwise
consistent (each present lower-bound source no later, day-stripped,
than each present upper-bound source) and both effective bounds are
defined, effectiveMin ≤ effectiveMax. The code performs no
cross-reconciliation, so contradictory inputs violate the invariant
(see the counterexample). -/
theorem claimC8_amended (now : JSDate) (minDate maxDate : Option JSDate)
    (minAge maxAge : Option Int)
    (hdd : ∀ a b, minDate = some a → maxDate = some b →
      getTime (stripTime a) ≤ getTime (stripTime b))
    (hda : ∀ a n, minDate = some a → minAge = some n →
      getTime (stripTime a) ≤ getTime (stripTime (addYears now (-n))))
    (had : ∀ x b, maxAge = some x → maxDate = some b →
      getTime (stripTime (addYears now (-x))) ≤ getTime (stripTime b))
    (haa : ∀ x n, maxAge = some x → minAge = some n →
      getTime (stripTime (addYears now (-x))) ≤ getTime (stripTime (addYears now (-n))))
    (lo hi : JSDate)
    (hlo : effectiveMin now minDate maxAge = some lo)
    (hhi : effectiveMax now maxDate minAge = some hi) :
    getTime lo ≤ getTime hi := by
  rcases effectiveMin_mem now minDate maxAge lo hlo with ⟨a, ha, rfl⟩ | ⟨x, hx, rfl⟩ <;>
    rcases effectiveMax_mem now maxDate minAge hi hhi with ⟨b, hb, rfl⟩ | ⟨n, hn, rfl⟩
  · exact hdd a b ha hb
  · exact hda a n ha hn
  · exact had x b hx hb
  · exact haa x n hx hn

/-- C8 amended witness at consistent concrete bounds. -/
theorem claimC8_amended_witness :
    getTime (stripTime (mkDate 2000 0 1 0)) ≤ getTime (stripTime (mkDate 2020 0 1 0)) :=
  claimC8_amended (mkDate 2024 5 15 0)
    (some (mkDate 2000 0 1 0)) (some (mkDate 2020 0 1 0)) none none
    (fun a b ha hb => by cases ha; cases hb; decide)
    (fun a n _ hn => Option.noConfusion hn)
    (fun x b hx _ => Option.noConfusion hx)
    (fun x n hx _ => Option.noConfusion hx)
    (stripTime (mkDate 2000 0 1 0)) (stripTime (mkDate 2020 0 1 0))
    (by decide) (by decide)

/-! ## Claim C4 -/

/-- C4 counterexample: February 2021 with Monday as first day of week
(Feb 1 2021 is a Monday, 28-day month) yields exactly 4 rows, refuting
the claimed minimum of 5. -/
theorem claimC4_counterexample :
    (getMonthMatrix 2021 1 1).length = 4 ∧ ¬ 5 ≤ (getMonthMatrix 2021 1 1).length := by
  refine ⟨by decide, by decide⟩

/-- Row structure of the padded, sliced cell list for any leading count
in [0, 7) and month length in [28, 31]. -/
lemma monthShape_general (sd dim : Int) (f1 f2 : Nat → DayCell)
    (hsd0 : 0 ≤ sd) (hsd : sd < 7) (hdim : 28 ≤ dim) (hdim31 : dim ≤ 31) :
    (∀ r ∈ chunk7 (padCells
        ((List.range sd.toNat).map f1 ++ (List.range dim.toNat).map f2)),
      r.length = 7)
    ∧ (chunk7 (padCells
        ((List.range sd.toNat).map f1 ++ (List.range dim.toNat).map f2))).length
      = ((dim + sd).toNat + 6) / 7
    ∧ 4 ≤ (chunk7 (padCells
        ((List.range sd.toNat).map f1 ++ (List.range dim.toNat).map f2))).length := by
  have hlen : ((List.range sd.toNat).map f1 ++ (List.range dim.toNat).map f2).length
      = sd.toNat + dim.toNat := by simp
  have hne : (List.range sd.toNat).map f1 ++ (List.range dim.toNat).map f2 ≠ [] := by
    apply List.ne_nil_of_length_pos
    rw [hlen]
    omega
  obtain ⟨h1, h2⟩ := matrixShape _ hne
  refine ⟨h1, ?_, ?_⟩
  · rw [h2, hlen]
    omega
  · rw [h2, hlen]
    omega

/-- C4 amended: for every year, month 0..11 and firstDayOfWeek 0..6,
every row of getMonthMatrix has exactly 7 cells, the number of rows is
ceil((daysInMonth + leadingPadding) / 7), and there are at least 4 rows
(not 5: a 28-day February starting on the configured first weekday
fills exactly 4 complete weeks). -/
theorem claimC4_amended (year month fdow : Int) (hm0 : 0 ≤ month) (hm : month ≤ 11)
    (hf0 : 0 ≤ fdow) (hf : fdow ≤ 6) :
    (∀ row ∈ getMonthMatrix year month fdow, row.length = 7)
    ∧ (getMonthMatrix year month fdow).length =
        (((mkDate year (month + 1) 0 0).day
            + (getDay (mkDate year month 1 0) - fdow + 7).tmod 7).toNat + 6) / 7
    ∧ 4 ≤ (getMonthMatrix year month fdow).length := by
  have hg := getDay_bounds (mkDate year month 1 0)
  have htm : (getDay (mkDate year month 1 0) - fdow + 7).tmod 7
      = (getDay (mkDate year month 1 0) - fdow + 7) % 7 :=
    Int.tmod_eq_emod (by omega) (by norm_num)
  have hday : (mkDate year (month + 1) 0 0).day = daysInMonth year month :=
    mkDate_zero_day year month hm0 hm
  have hdayb := daysInMonth_bounds year month
  have hsd0 : 0 ≤ (getDay (mkDate year month 1 0) - fdow + 7).tmod 7 := by
    rw [htm]
    exact Int.emod_nonneg _ (by norm_num)
  have hsd7 : (getDay (mkDate year month 1 0) - fdow + 7).tmod 7 < 7 := by
    rw [htm]
    exact Int.emod_lt_of_pos _ (by norm_num)
  unfold getMonthMatrix
  dsimp only
  exact monthShape_general
    ((getDay (mkDate year month 1 0) - fdow + 7).tmod 7)
    ((mkDate year (month + 1) 0 0).day)
    (fun i => DayCell.mk
      (mkDate year month
        ((i : Int) - (getDay (mkDate year month 1 0) - fdow + 7).tmod 7 + 1) 0)
      false)
    (fun i => DayCell.mk (mkDate year month ((i : Int) + 1) 0) true)
    hsd0 hsd7 (by rw [hday]; exact hdayb.1) (by rw [hday]; exact hdayb.2)

/-- C4 amended witness: February 2024, Sunday-first (the spec's own
example month). -/
theorem claimC4_amended_witness :
    ((∀ row ∈ getMonthMatrix 2024 1 0, row.length = 7)
      ∧ (getMonthMatrix 2024 1 0).length =
          (((mkDate 2024 2 0 0).day
              + (getDay (mkDate 2024 1 1 0) - 0 + 7).tmod 7).toNat + 6) / 7
      ∧ 4 ≤ (getMonthMatrix 2024 1 0).length)
    ∧ (getMonthMatrix 2024 1 0).length = 5 := by
  refine ⟨claimC4_amended 2024 1 0 (by norm_num) (by norm_num) (by norm_num) (by norm_num),
    by decide⟩

/-! ## Selection state machine and time wheels
(index.tsx lines 648-688, 1115-1131, 1145-1205, 1208-1235, 1296-1315) -/

inductive ViewMode where
  | days
  | months
  | years
  | time
deriving DecidableEq, Repr

inductive Mode where
  | date
  | time
  | datetime
deriving DecidableEq, Repr

/-- The component state the handlers read and write: selected,
startDate, endDate, viewMode, selectedHour, selectedMinute. -/
structure PickerState where
  selected : JSDate
  startDate : Option JSDate
  endDate : Option JSDate
  viewMode : ViewMode
  selectedHour : Int
  selectedMinute : Int
deriving DecidableEq, Repr

/-- The callbacks a handler fires: onChange payload, onRangeChange
payload, and whether onClose was called. -/
structure Emitted where
  changed : Option JSDate := none
  rangeChanged : Option (Option JSDate × Option JSDate) := none
  closed : Bool := false
deriving DecidableEq, Repr

/-- handleSelect (lines 648-688). A tap outside the effective bounds
returns before touching anything. In range mode the three branches
mirror lines 652-665 (d > startDate is the JavaScript Date comparison,
i.e. a getTime comparison); in single mode the time fields are applied
for datetime/time modes and the date/datetime/else routing of lines
678-686 decides the emitted events. -/
def handleSelect (mode : Mode) (range : Bool) (effMin effMax : Option JSDate)
    (s : PickerState) (d : JSDate) : PickerState × Emitted :=
  if !(betweenDates d effMin effMax) then (s, {})
  else if range then
    match s.startDate, s.endDate with
    | none, _ =>
      ({ s with startDate := some d, endDate := none },
       { rangeChanged := some (some d, none) })
    | some _, some _ =>
      ({ s with startDate := some d, endDate := none },
       { rangeChanged := some (some d, none) })
    | some st, none =>
      if getTime st < getTime d then
        ({ s with endDate := some d },
         { rangeChanged := some (some st, some d), closed := true })
      else
        ({ s with startDate := some d },
         { rangeChanged := some (some d, none) })
  else
    let finalDate :=
      if mode = Mode.datetime ∨ mode = Mode.time then
        setMinutes (setHours d s.selectedHour) s.selectedMinute
      else d
    let s2 := { s with selected := finalDate }
    if mode = Mode.date then
      (s2, { changed := some finalDate, closed := true })
    else if mode = Mode.datetime ∧ s.viewMode = ViewMode.days then
      ({ s2 with viewMode := ViewMode.time }, {})
    else
      (s2, { changed := some finalDate, closed := true })

/-- isTimeValid (lines 1115-1131): minutes-since-midnight containment
in the optional [minTime, maxTime] window. -/
def isTimeValid (minTime maxTime : Option (Int × Int)) (hour minute : Int) : Bool :=
  match minTime, maxTime with
  | none, none => true
  | _, _ =>
    let timeInMinutes := hour * 60 + minute
    (match minTime with
     | some mt => !(timeInMinutes < mt.1 * 60 + mt.2)
     | none => true)
    && (match maxTime with
        | some mt => !(mt.1 * 60 + mt.2 < timeInMinutes)
        | none => true)

/-- The hour wheel's data (line 1133-1135): 0..23 in 24-hour mode,
1..12 in 12-hour mode. -/
def hoursList (is24 : Bool) : List Int :=
  if is24 then (List.range 24).map (fun (i : Nat) => (i : Int))
  else (List.range 12).map (fun (i : Nat) => (i : Int) + 1)

/-- The minute wheel's data (lines 1137-1140). -/
def minutesList (minuteInterval : Int) : List Int :=
  (List.range (60 / minuteInterval).toNat).map (fun (i : Nat) => (i : Int) * minuteInterval)

/-- getHourScrollIndex (lines 1145-1155): the wheel index of the stored
24-hour value (identity in 24-hour mode; display digit minus one in
12-hour mode, with 0 shown as 12). -/
def getHourScrollIndex (is24 : Bool) (selectedHour : Int) : Int :=
  if is24 then selectedHour
  else
    let displayHour0 := selectedHour.tmod 12
    let displayHour := if displayHour0 = 0 then 12 else displayHour0
    displayHour - 1

/-- The 12-hour display digit of a stored 24-hour value, as computed in
getHourScrollIndex (lines 1150-1151). -/
def to12Display (h : Int) : Int :=
  if h.tmod 12 = 0 then 12 else h.tmod 12

/-- The AM/PM flag of a stored 24-hour value: every rendering and both
scroll handlers test selectedHour >= 12. -/
def to12IsPM (h : Int) : Bool := 12 ≤ h

/-- The display-and-period to 24-hour conversion performed by
handleHourScroll (lines 1171-1182) with currentlyPM as the flag. -/
def to24Hour (display : Int) (isPM : Bool) : Int :=
  if display = 12 then (if isPM then 12 else 0)
  else (if isPM then display + 12 else display)

/-- The clamp-and-index both wheel handlers perform on the snapped
scroll index (lines 1164-1166, 1210-1212): clampedIndex =
max(0, min(index, length - 1)), then list lookup (always in range; the
default 0 of getD is unreachable). -/
def wheelValueAt (l : List Int) (index : Int) : Int :=
  l.getD (max 0 (min index ((l.length : Int) - 1))).toNat 0

/-- The 12-hour display value to stored 24-hour value conversion of
handleHourScroll (lines 1168-1182), using the current AM/PM period. -/
def wheelHour24 (is24 : Bool) (storedHour selectedHourValue : Int) : Int :=
  if is24 then selectedHourValue
  else
    let currentlyPM := decide (12 ≤ storedHour)
    if selectedHourValue = 12 then (if currentlyPM then 12 else 0)
    else (if currentlyPM then selectedHourValue + 12 else selectedHourValue)

/-- handleHourScroll (lines 1162-1205) as a function of the snapped
wheel index (Math.round(contentOffset.y / ITEM_HEIGHT) in the code).
The index is clamped into the list, converted to a 24-hour value using
the current AM/PM period, rejected if it breaks the time window, and
otherwise stored (also into the selected date). No callback fires. -/
def handleHourScroll (is24 : Bool) (minT maxT : Option (Int × Int))
    (s : PickerState) (index : Int) : PickerState :=
  let selectedHourValue := wheelValueAt (hoursList is24) index
  let actualHour := wheelHour24 is24 s.selectedHour selectedHourValue
  if !(isTimeValid minT maxT actualHour s.selectedMinute) then s
  else if actualHour ≠ s.selectedHour then
    { s with selectedHour := actualHour, selected := setHours s.selected actualHour }
  else s

/-- handleMinuteScroll (lines 1208-1235), analogous. -/
def handleMinuteScroll (minuteInterval : Int) (minT maxT : Option (Int × Int))
    (s : PickerState) (index : Int) : PickerState :=
  let selectedMinuteValue := wheelValueAt (minutesList minuteInterval) index
  if !(isTimeValid minT maxT s.selectedHour selectedMinuteValue) then s
  else if selectedMinuteValue ≠ s.selectedMinute then
    { s with
      selectedMinute := selectedMinuteValue
      selected := setMinutes s.selected selectedMinuteValue }
  else s

/-- handleAmPmScroll (lines 1296-1315): index 1 means PM. The stored
hour is shifted by 12 toward the chosen period and written, together
with the selected date, WITHOUT any isTimeValid check. -/
def handleAmPmScroll (s : PickerState) (index : Int) : PickerState :=
  let isPM := index = 1
  let newHour :=
    if isPM then (if s.selectedHour < 12 then s.selectedHour + 12 else s.selectedHour)
    else (if 12 ≤ s.selectedHour then s.selectedHour - 12 else s.selectedHour)
  if newHour ≠ s.selectedHour then
    { s with selectedHour := newHour, selected := setHours s.selected newHour }
  else s

/-! ## Claim C5 -/

/-- A tap when no start is set, or when both ends are set, starts a new
range. -/
lemma handleSelect_range_new (mode : Mode) (effMin effMax : Option JSDate)
    (s : PickerState) (d : JSDate) (hb : betweenDates d effMin effMax = true)
    (h : s.startDate = none ∨ (s.startDate ≠ none ∧ s.endDate ≠ none)) :
    handleSelect mode true effMin effMax s d =
      ({ s with startDate := some d, endDate := none },
       { rangeChanged := some (some d, none) }) := by
  rcases h with h | ⟨h1, h2⟩
  · simp [handleSelect, hb, h]
  · obtain ⟨a, ha⟩ := Option.ne_none_iff_exists'.mp h1
    obtain ⟨b, hbb⟩ := Option.ne_none_iff_exists'.mp h2
    simp [handleSelect, hb, ha, hbb]

/-- A tap strictly after the current start, with the end unset,
completes the range, fires the callback and closes. -/
lemma handleSelect_range_advance (mode : Mode) (effMin effMax : Option JSDate)
    (s : PickerState) (d st : JSDate) (hb : betweenDates d effMin effMax = true)
    (hs : s.startDate = some st) (he : s.endDate = none)
    (hlt : getTime st < getTime d) :
    handleSelect mode true effMin effMax s d =
      ({ s with endDate := some d },
       { rangeChanged := some (some st, some d), closed := true }) := by
  simp [handleSelect, hb, hs, he, hlt]

/-- A tap at or before the current start, with the end unset, replaces
the start and leaves the end null. -/
lemma handleSelect_range_restart (mode : Mode) (effMin effMax : Option JSDate)
    (s : PickerState) (d st : JSDate) (hb : betweenDates d effMin effMax = true)
    (hs : s.startDate = some st) (he : s.endDate = none)
    (hnlt : ¬ getTime st < getTime d) :
    handleSelect mode true effMin effMax s d =
      ({ s with startDate := some d },
       { rangeChanged := some (some d, none) }) := by
  simp [handleSelect, hb, hs, he, hnlt]

/-- After any valid tap, a state with both ends set has start strictly
before end. -/
lemma handleSelect_range_invariant (mode : Mode) (effMin effMax : Option JSDate)
    (s : PickerState) (d st en : JSDate) (hb : betweenDates d effMin effMax = true)
    (hst : (handleSelect mode true effMin effMax s d).1.startDate = some st)
    (hen : (handleSelect mode true effMin effMax s d).1.endDate = some en) :
    getTime st < getTime en := by
  rcases hs0 : s.startDate with _ | st0
  · rw [handleSelect_range_new mode effMin effMax s d hb (Or.inl hs0)] at hst hen
    simp at hen
  · rcases he0 : s.endDate with _ | en0
    · by_cases hlt : getTime st0 < getTime d
      · rw [handleSelect_range_advance mode effMin effMax s d st0 hb hs0 he0 hlt]
          at hst hen
        simp [hs0] at hst hen
        subst hst
        subst hen
        exact hlt
      · rw [handleSelect_range_restart mode effMin effMax s d st0 hb hs0 he0 hlt]
          at hst hen
        simp [he0] at hen
    · rw [handleSelect_range_new mode effMin effMax s d hb
          (Or.inr ⟨by rw [hs0]; simp, by rw [he0]; simp⟩)] at hst hen
      simp at hen

/-- C5: in range mode, for every valid tap: with no start (or a
complete range) the tapped date becomes the start and the end is
cleared; with a start and no end, a strictly later date completes the
range, fires the callback and closes, while an earlier-or-equal date
replaces the start and leaves the end null; consequently a state with
both ends set always has start strictly before end. -/
theorem claimC5_range_state_machine :
    (∀ (mode : Mode) (effMin effMax : Option JSDate) (s : PickerState) (d : JSDate),
      betweenDates d effMin effMax = true →
      (s.startDate = none ∨ (s.startDate ≠ none ∧ s.endDate ≠ none)) →
      handleSelect mode true effMin effMax s d =
        ({ s with startDate := some d, endDate := none },
         { rangeChanged := some (some d, none) }))
    ∧ (∀ (mode : Mode) (effMin effMax : Option JSDate) (s : PickerState) (d st : JSDate),
      betweenDates d effMin effMax = true →
      s.startDate = some st → s.endDate = none → getTime st < getTime d →
      handleSelect mode true effMin effMax s d =
        ({ s with endDate := some d },
         { rangeChanged := some (some st, some d), closed := true }))
    ∧ (∀ (mode : Mode) (effMin effMax : Option JSDate) (s : PickerState) (d st : JSDate),
      betweenDates d effMin effMax = true →
      s.startDate = some st → s.endDate = none → ¬ getTime st < getTime d →
      handleSelect mode true effMin effMax s d =
        ({ s with startDate := some d },
         { rangeChanged := some (some d, none) }))
    ∧ (∀ (mode : Mode) (effMin effMax : Option JSDate) (s : PickerState) (d st en : JSDate),
      betweenDates d effMin effMax = true →
      (handleSelect mode true effMin effMax s d).1.startDate = some st →
      (handleSelect mode true effMin effMax s d).1.endDate = some en →
      getTime st < getTime en) :=
  ⟨fun mode effMin effMax s d hb h => handleSelect_range_new mode effMin effMax s d hb h,
   fun mode effMin effMax s d st hb hs he hlt =>
     handleSelect_range_advance mode effMin effMax s d st hb hs he hlt,
   fun mode effMin effMax s d st hb hs he hnlt =>
     handleSelect_range_restart mode effMin effMax s d st hb hs he hnlt,
   fun mode effMin effMax s d st en hb hst hen =>
     handleSelect_range_invariant mode effMin effMax s d st en hb hst hen⟩

/-- The spec's range example state: start June 10 2024, no end. -/
def june10State : PickerState :=
  ⟨mkDate 2024 5 10 0, some (mkDate 2024 5 10 0), none, ViewMode.days, 0, 0⟩

/-- C5 witness: tapping June 5 after June 10 resets the range to
start = June 5, end = null. -/
theorem claimC5_witness :
    handleSelect Mode.date true none none june10State (mkDate 2024 5 5 0) =
      ({ june10State with startDate := some (mkDate 2024 5 5 0) },
       { rangeChanged := some (some (mkDate 2024 5 5 0), none) }) :=
  claimC5_range_state_machine.2.2.1 Mode.date none none june10State
    (mkDate 2024 5 5 0) (mkDate 2024 5 10 0) (by decide) rfl rfl (by decide)

/-! ## Claim C6 -/

/-- C6: the 12/24-hour wheel mapping shows 0 as 12 AM, 13 as 1 PM and
12 as 12 PM; the display digit agrees with getHourScrollIndex; and for
every stored hour 0..23 the (display, isPM) pair converts back to the
same 24-hour value through the handleHourScroll conversion. -/
theorem claimC6_wheel_mapping :
    to12Display 0 = 12 ∧ to12IsPM 0 = false
    ∧ to12Display 13 = 1 ∧ to12IsPM 13 = true
    ∧ to12Display 12 = 12 ∧ to12IsPM 12 = true
    ∧ (∀ h : Int, getHourScrollIndex false h = to12Display h - 1)
    ∧ (∀ h : Int, 0 ≤ h → h ≤ 23 →
        to24Hour (to12Display h) (to12IsPM h) = h) := by
  refine ⟨by decide, by decide, by decide, by decide, by decide, by decide,
    fun h => rfl, ?_⟩
  intro h h0 h23
  interval_cases h <;> decide

/-- C6 witness at hour 13 (1 PM). -/
theorem claimC6_witness : to24Hour (to12Display 13) (to12IsPM 13) = 13 :=
  claimC6_wheel_mapping.2.2.2.2.2.2.2 13 (by norm_num) (by norm_num)

/-! ## Claim C7 -/

/-- Shape of the guarded update of the hour wheel: it either leaves the
state untouched or lands on a time passing isTimeValid. -/
lemma hourGuard_cases (minT maxT : Option (Int × Int)) (s : PickerState) (A : Int) :
    (if !(isTimeValid minT maxT A s.selectedMinute) then s
      else if A ≠ s.selectedHour then
        { s with selectedHour := A, selected := setHours s.selected A }
      else s) = s
    ∨ (isTimeValid minT maxT
        (if !(isTimeValid minT maxT A s.selectedMinute) then s
          else if A ≠ s.selectedHour then
            { s with selectedHour := A, selected := setHours s.selected A }
          else s).selectedHour
        (if !(isTimeValid minT maxT A s.selectedMinute) then s
          else if A ≠ s.selectedHour then
            { s with selectedHour := A, selected := setHours s.selected A }
          else s).selectedMinute = true) := by
  by_cases hv : isTimeValid minT maxT A s.selectedMinute = true
  · rw [hv]
    by_cases hA : A ≠ s.selectedHour
    · right
      simp only [Bool.not_true, if_neg, if_pos hA]
      simpa using hv
    · left
      simp [hA]
  · left
    have hf : isTimeValid minT maxT A s.selectedMinute = false :=
      Bool.eq_false_iff.mpr hv
    rw [hf]
    simp

/-- Shape of the guarded update of the minute wheel. -/
lemma minuteGuard_cases (minT maxT : Option (Int × Int)) (s : PickerState) (V : Int) :
    (if !(isTimeValid minT maxT s.selectedHour V) then s
      else if V ≠ s.selectedMinute then
        { s with selectedMinute := V, selected := setMinutes s.selected V }
      else s) = s
    ∨ (isTimeValid minT maxT
        (if !(isTimeValid minT maxT s.selectedHour V) then s
          else if V ≠ s.selectedMinute then
            { s with selectedMinute := V, selected := setMinutes s.selected V }
          else s).selectedHour
        (if !(isTimeValid minT maxT s.selectedHour V) then s
          else if V ≠ s.selectedMinute then
            { s with selectedMinute := V, selected := setMinutes s.selected V }
          else s).selectedMinute = true) := by
  by_cases hv : isTimeValid minT maxT s.selectedHour V = true
  · rw [hv]
    by_cases hV : V ≠ s.selectedMinute
    · right
      simp only [Bool.not_true, if_neg, if_pos hV]
      simpa using hv
    · left
      simp [hV]
  · left
    have hf : isTimeValid minT maxT s.selectedHour V = false :=
      Bool.eq_false_iff.mpr hv
    rw [hf]
    simp

/-- The failing state for the AM/PM hole: business hours 9:00-17:00,
stored time 10:00. -/
def amPmBugState : PickerState :=
  ⟨mkDate 2024 5 15 600, none, none, ViewMode.time, 10, 0⟩

/-- C7: taps outside the effective date bounds are silently ignored
(state unchanged, no callback), and the hour and minute wheels either
leave the state unchanged or land on a time inside the [minTime,
maxTime] window — but the AM/PM wheel performs no such check: from a
valid 10:00 under a 9:00-17:00 window, scrolling to PM stores the
out-of-window hour 22 and mutates the selected date, contradicting the
claimed silent rejection (and the README's statement that invalid
times cannot be selected). -/
theorem claimC7_rejection_and_ampm_hole :
    (∀ (mode : Mode) (range : Bool) (effMin effMax : Option JSDate)
        (s : PickerState) (d : JSDate),
      betweenDates d effMin effMax = false →
      handleSelect mode range effMin effMax s d = (s, {}))
    ∧ (∀ (is24 : Bool) (minT maxT : Option (Int × Int)) (s : PickerState) (idx : Int),
      handleHourScroll is24 minT maxT s idx = s
      ∨ isTimeValid minT maxT (handleHourScroll is24 minT maxT s idx).selectedHour
          (handleHourScroll is24 minT maxT s idx).selectedMinute = true)
    ∧ (∀ (interval : Int) (minT maxT : Option (Int × Int)) (s : PickerState) (idx : Int),
      handleMinuteScroll interval minT maxT s idx = s
      ∨ isTimeValid minT maxT
          (handleMinuteScroll interval minT maxT s idx).selectedHour
          (handleMinuteScroll interval minT maxT s idx).selectedMinute = true)
    ∧ ((handleAmPmScroll amPmBugState 1).selectedHour = 22
      ∧ isTimeValid (some (9, 0)) (some (17, 0)) 22 0 = false
      ∧ handleAmPmScroll amPmBugState 1 ≠ amPmBugState) := by
  refine ⟨?_, ?_, ?_, by decide, by decide, by decide⟩
  · intro mode range effMin effMax s d hb
    simp [handleSelect, hb]
  · intro is24 minT maxT s idx
    exact hourGuard_cases minT maxT s
      (wheelHour24 is24 s.selectedHour (wheelValueAt (hoursList is24) idx))
  · intro interval minT maxT s idx
    exact minuteGuard_cases minT maxT s (wheelValueAt (minutesList interval) idx)

/-- C7 witness: a tap on 2020-01-01 under a minDate of 2024-01-01 is
silently ignored. -/
theorem claimC7_witness :
    handleSelect Mode.date false (some (mkDate 2024 0 1 0)) none
      june10State (mkDate 2020 0 1 0) = (june10State, {}) :=
  claimC7_rejection_and_ampm_hole.1 Mode.date false (some (mkDate 2024 0 1 0)) none
    june10State (mkDate 2020 0 1 0) (by decide)

end ModernDP
